import Mathlib

/-!
Verification of the knowledgeGPT repository against its specification.

Shallow embedding of the core data model and operations:
* `FAISSVectorStore` — the FAISS vector store manager (`src/vectorstores/faiss_store.py`),
  modelled as the list of (docstore id, page content) entries held by the index in
  position order (the faiss index, the `index_to_docstore_id` mapping and the docstore
  are kept consistent by the library, so one list captures all three), together with
  the last copy persisted by `save_local`.
* `LoaderState` — the document loader service (`src/loaders/document_loader.py`):
  the documents directory and the raw text of the processed-documents record file.
* `Msg` / middleware functions — the long-term-memory middleware pipeline
  (`src/memory/long_term_memory.py`), with the external Chroma / model calls abstracted
  as injected functions.
* Middleware ordering and checkpoint setup of `FAISSConversationalRAGChain.__init__`
  (`src/chains/faiss_conversational_chain.py`).

Embedding conventions: Python exceptions become `Except String`; a `try/except` that
logs and continues becomes a `match` that discards the error; file system directories
become association lists from file name to file content.
-/

/-! ## FAISS vector store (`src/vectorstores/faiss_store.py`) -/

/-- State of the langchain FAISS vector store.

`entries` is the in-memory index in vector-slot order: slot `i` holds the docstore id
`(entries.get i).1` (the `index_to_docstore_id` mapping) and the docstore maps that id
to the page content `(entries.get i).2`; `index.ntotal = entries.length`.
`disk` is the copy last written by `save_local` to `FAISS_INDEX_PATH`. -/
structure FAISSVectorStore where
  entries : List (String × String)
  disk : List (String × String)
  deriving DecidableEq

/-- `FAISSVectorStore._load_or_create_vector_store`, first-time branch: no persisted
index exists, so `FAISS.from_texts(["初始化文档"], embeddings)` builds a store holding
exactly the one sentinel entry (its docstore id is a random uuid, abstracted as the
argument `u`), and `save_local` persists it immediately. -/
def load_or_create_fresh (u : String) : FAISSVectorStore :=
  { entries := [(u, "初始化文档")], disk := [(u, "初始化文档")] }

/-- `FAISSVectorStore.clear`: `index.reset()` drops every vector (`ntotal` becomes 0),
`index_to_docstore_id` is replaced by `{}`, the docstore by a fresh `InMemoryDocstore()`,
and `save_local` overwrites the persisted copy. -/
def FAISSVectorStore.clear (_s : FAISSVectorStore) : FAISSVectorStore :=
  { entries := [], disk := [] }

/-- `FAISSVectorStore.add_documents`, net effect on the store state: the (id, content)
pairs are appended in order — batching into groups of 10 via `batch_process_documents`
preserves the order — and `save_local` runs once at the end. -/
def FAISSVectorStore.add_entries (s : FAISSVectorStore)
    (new : List (String × String)) : FAISSVectorStore :=
  { entries := s.entries ++ new, disk := s.entries ++ new }

/-- Python `str.startswith`: character-level prefix test (total, structurally
recursive, so concrete instances evaluate in the kernel). -/
def startswith (pre s : String) : Bool :=
  pre.toList.isPrefixOf s.toList

/-- `FAISSVectorStore.delete_by_source`: guard on an empty source id (`if not doc_id`);
scan `index_to_docstore_id.values()` for ids starting with `doc_id ++ "_"`; if none
match, log a warning and return `False` (the "no match" signal); otherwise
`vector_store.delete(ids_to_delete)` removes exactly those entries and `save()`
persists the result. -/
def FAISSVectorStore.delete_by_source (s : FAISSVectorStore) (doc_id : String) :
    FAISSVectorStore × Bool :=
  if doc_id = "" then (s, false)
  else
    let all_ids := s.entries.map Prod.fst
    let ids_to_delete := all_ids.filter (fun i => startswith (doc_id ++ "_") i)
    if ids_to_delete.isEmpty then (s, false)
    else
      let kept := s.entries.filter (fun e => !(ids_to_delete.contains e.1))
      ({ entries := kept, disk := kept }, true)

/-- Filtering with the negation of `p` leaves no element satisfying `p`. -/
theorem any_filter_not_eq_false {α : Type} (l : List α) (p : α → Bool) :
    (l.filter (fun a => !p a)).any p = false := by
  induction l with
  | nil => rfl
  | cons a t ih => by_cases h : p a <;> simp [List.filter_cons, h, ih]

/-- C1. The claim asserts that `clear()` leaves the store in the same bootstrapped
(sentinel-only) state as a first-time `load_or_create()`. It does not: `clear` resets
the index to zero entries and installs an empty mapping and docstore, whereas the
first-time `_load_or_create_vector_store` seeds the index with one sentinel entry.
Concretely, clearing a freshly created store yields 0 entries while the freshly
created store itself has 1. -/
theorem C1_clear_not_bootstrapped_counterexample :
    (FAISSVectorStore.clear (load_or_create_fresh "u0")).entries.length = 0 ∧
    (load_or_create_fresh "u0").entries.length = 1 ∧
    FAISSVectorStore.clear (load_or_create_fresh "u0") ≠ load_or_create_fresh "u0" := by
  refine ⟨rfl, rfl, ?_⟩
  intro h
  simpa [FAISSVectorStore.clear, load_or_create_fresh] using congrArg FAISSVectorStore.entries h

/-- C1 (amended). After `clear()` the store holds zero entries, with empty id-mapping
and content store, and that empty state is persisted. This is not the sentinel-only
state of a first-time `load_or_create()`, which holds exactly one sentinel entry, and
a subsequent `add` therefore does not behave identically: on a cleared store it yields
exactly the added entries, while on a freshly created store the sentinel entry is
retained in front of them. -/
theorem C1_clear_empties_and_differs_from_fresh (s : FAISSVectorStore) (u : String)
    (new : List (String × String)) :
    s.clear = { entries := [], disk := [] } ∧
    s.clear.disk = s.clear.entries ∧
    s.clear ≠ load_or_create_fresh u ∧
    (s.clear.add_entries new).entries = new ∧
    ((load_or_create_fresh u).add_entries new).entries = (u, "初始化文档") :: new := by
  refine ⟨rfl, rfl, ?_, by simp [FAISSVectorStore.clear, FAISSVectorStore.add_entries], by
    simp [load_or_create_fresh, FAISSVectorStore.add_entries]⟩
  intro h
  simpa [FAISSVectorStore.clear, load_or_create_fresh] using congrArg FAISSVectorStore.entries h

/-- C6 (counterexample). The claim quantifies over every source id, but
`delete_by_source` returns early on the empty source id (`if not doc_id`), so for
`X = ""` entries whose id begins with `"_"` (reachable: `add_documents` builds ids as
`file_name ++ "_" ++ uuid` with `file_name` defaulting to `""`) are not deleted and
remain, contradicting "afterwards no remaining vector id begins with X_". -/
theorem C6_empty_source_counterexample :
    (FAISSVectorStore.delete_by_source
        { entries := [("_u1", "c1")], disk := [("_u1", "c1")] } "").2 = false ∧
    (FAISSVectorStore.delete_by_source
        { entries := [("_u1", "c1")], disk := [("_u1", "c1")] } "").1.entries
        = [("_u1", "c1")] ∧
    startswith ("" ++ "_") "_u1" = true :=
  ⟨rfl, rfl, by decide⟩

/-- C6 (amended). For every non-empty source id `X`, `delete_by_source X` keeps exactly
the entries whose id does not start with `X ++ "_"` (so afterwards no remaining id has
that prefix), returns `true` exactly when some id matched (`false` is the "no match"
signal, not an error), leaves the store untouched when nothing matched, and persists
the result when a deletion happened. For `X = ""` the call instead returns `false`
immediately without scanning. -/
theorem C6_delete_by_source_nonempty_source (s : FAISSVectorStore) (X : String)
    (hX : X ≠ "") :
    (s.delete_by_source X).1.entries
        = s.entries.filter (fun e => !(startswith (X ++ "_") e.1)) ∧
    ((s.delete_by_source X).1.entries.any (fun e => startswith (X ++ "_") e.1)
        = false) ∧
    ((s.delete_by_source X).2 = s.entries.any (fun e => startswith (X ++ "_") e.1)) ∧
    ((s.delete_by_source X).2 = false → (s.delete_by_source X).1 = s) ∧
    ((s.delete_by_source X).2 = true →
        (s.delete_by_source X).1.disk = (s.delete_by_source X).1.entries) := by
  have hmem : ∀ e ∈ s.entries,
      ((s.entries.map Prod.fst).filter (fun i => startswith (X ++ "_") i)).contains e.1
        = startswith (X ++ "_") e.1 := by
    intro e he
    have hm : e.1 ∈ s.entries.map Prod.fst := List.mem_map_of_mem Prod.fst he
    cases hb : startswith (X ++ "_") e.1 with
    | true =>
      have hmem2 : e.1 ∈ (s.entries.map Prod.fst).filter
          (fun i => startswith (X ++ "_") i) := List.mem_filter.mpr ⟨hm, hb⟩
      simp [List.contains, List.elem_eq_mem, hmem2]
    | false =>
      have hmem2 : e.1 ∉ (s.entries.map Prod.fst).filter
          (fun i => startswith (X ++ "_") i) := by
        intro hcon
        have hb2 := (List.mem_filter.mp hcon).2
        rw [hb] at hb2
        exact Bool.false_ne_true hb2
      simp [List.contains, List.elem_eq_mem, hmem2]
  by_cases hids : ((s.entries.map Prod.fst).filter
      (fun i => startswith (X ++ "_") i)).isEmpty
  · have hnil : (s.entries.map Prod.fst).filter (fun i => startswith (X ++ "_") i)
        = [] := by simpa [List.isEmpty_iff] using hids
    have hall : ∀ e ∈ s.entries, ¬ startswith (X ++ "_") e.1 = true := by
      intro e he hp
      have hmem2 : e.1 ∈ (s.entries.map Prod.fst).filter
          (fun i => startswith (X ++ "_") i) :=
        List.mem_filter.mpr ⟨List.mem_map_of_mem Prod.fst he, hp⟩
      simp [hnil] at hmem2
    have hres : s.delete_by_source X = (s, false) := by
      simp [FAISSVectorStore.delete_by_source, hX, hids]
    have hfilter : s.entries.filter (fun e => !(startswith (X ++ "_") e.1))
        = s.entries := by
      rw [List.filter_eq_self]
      intro e he
      simp [hall e he]
    have hany : s.entries.any (fun e => startswith (X ++ "_") e.1) = false := by
      rw [List.any_eq_false]
      exact hall
    rw [hres]
    exact ⟨hfilter.symm, hany, hany.symm, fun _ => rfl, by simp⟩
  · have hres : s.delete_by_source X
        = ({ entries := s.entries.filter (fun e =>
              !(((s.entries.map Prod.fst).filter
                  (fun i => startswith (X ++ "_") i)).contains e.1)),
             disk := s.entries.filter (fun e =>
              !(((s.entries.map Prod.fst).filter
                  (fun i => startswith (X ++ "_") i)).contains e.1)) }, true) := by
      simp [FAISSVectorStore.delete_by_source, hX, hids]
    have hkept : s.entries.filter (fun e =>
          !(((s.entries.map Prod.fst).filter
              (fun i => startswith (X ++ "_") i)).contains e.1))
        = s.entries.filter (fun e => !(startswith (X ++ "_") e.1)) := by
      apply List.filter_congr
      intro e he
      rw [hmem e he]
    have hex : s.entries.any (fun e => startswith (X ++ "_") e.1) = true := by
      have hne : (s.entries.map Prod.fst).filter (fun i => startswith (X ++ "_") i)
          ≠ [] := by
        intro h
        rw [h] at hids
        simp at hids
      obtain ⟨i, hi⟩ := List.exists_mem_of_ne_nil _ hne
      have hi' := List.mem_filter.mp hi
      obtain ⟨e, he, hfe⟩ := List.mem_map.mp hi'.1
      rw [List.any_eq_true]
      exact ⟨e, he, by rw [hfe]; exact hi'.2⟩
    rw [hres, hkept]
    refine ⟨rfl, any_filter_not_eq_false s.entries (fun e => startswith (X ++ "_") e.1),
      hex.symm, by simp, fun _ => rfl⟩

/-- C6 (witness for the amended theorem at a concrete store and source id). -/
theorem C6_delete_by_source_witness :
    ("doc" ≠ "") ∧
    ((FAISSVectorStore.delete_by_source
        { entries := [("doc_u1", "c1"), ("other_u2", "c2")],
          disk := [("doc_u1", "c1"), ("other_u2", "c2")] } "doc").1.entries
      = ([("doc_u1", "c1"), ("other_u2", "c2")] : List (String × String)).filter
          (fun e => !(startswith ("doc" ++ "_") e.1))) :=
  ⟨by decide, (C6_delete_by_source_nonempty_source
      { entries := [("doc_u1", "c1"), ("other_u2", "c2")],
        disk := [("doc_u1", "c1"), ("other_u2", "c2")] } "doc" (by decide)).1⟩

/-! ## Document loader service (`src/loaders/document_loader.py`) -/

/-- Python `str.splitlines` for `\n`-separated text (the only separator these files
use): split at each newline, with no trailing empty piece for a final newline. -/
def splitlines_chars : List Char → List Char → List String
  | [], acc => if acc.isEmpty then [] else [String.mk acc]
  | c :: rest, acc =>
    if c = '\n' then String.mk acc :: splitlines_chars rest []
    else splitlines_chars rest (acc ++ [c])

/-- `text.splitlines()` on the record file's raw content. -/
def splitlines (s : String) : List String := splitlines_chars s.toList []

/-- Python `"\n".join(ids)`. -/
def join_newline : List String → String
  | [] => ""
  | [x] => x
  | x :: xs => x ++ "\n" ++ join_newline xs

/-- Index (from the front) of the last `'.'` in the name, if any. -/
def rfind_dot : List Char → Option Nat
  | [] => none
  | c :: rest =>
    match rfind_dot rest with
    | some i => some (i + 1)
    | none => if c = '.' then some 0 else none

/-- `pathlib.Path(name).suffix`: the extension starting at the last dot, nonempty only
when that dot is neither the first nor the last character of the name. -/
def path_suffix (name : String) : String :=
  match rfind_dot name.toList with
  | none => ""
  | some i =>
    if 0 < i ∧ i < name.toList.length - 1 then String.mk (name.toList.drop i) else ""

/-- `str.lower()`, character by character (the extensions compared are ASCII). -/
def lower_str (s : String) : String := String.mk (s.toList.map Char.toLower)

/-- The keys of `DocumentLoaderService.SUPPORTED_LOADERS`. -/
def SUPPORTED_EXTENSIONS : List String :=
  [".pdf", ".docx", ".doc", ".txt", ".html", ".htm", ".md"]

/-- A document chunk as produced by `load_document`: page content plus the
`file_name` metadata that `add_documents` later uses as the id prefix. -/
structure Chunk where
  content : String
  file_name : String
  deriving DecidableEq

/-- A streamlit `UploadedFile`: a named binary payload. -/
structure UploadedFile where
  name : String
  data : String
  deriving DecidableEq

/-- State owned by `DocumentLoaderService`: the documents directory
(`Config.DOCUMENTS_DIR`, file name ↦ saved bytes) and the processed-documents record
file (`Config.PROCESSED_DOCS_RECORD`): `none` when the file does not exist, otherwise
its raw text — raw, because the exact byte layout (trailing newline or not) is what
`_is_document_processed` and `_record_processed_document` interact with. -/
structure LoaderState where
  documents_dir : List (String × String)
  record : Option String
  deriving DecidableEq

/-- `open(path, "wb").write(data)`: create or overwrite the named file. -/
def write_file (dir : List (String × String)) (name data : String) :
    List (String × String) :=
  if dir.any (fun p => p.1 == name) then
    dir.map (fun p => if p.1 == name then (name, data) else p)
  else dir ++ [(name, data)]

/-- `DocumentLoaderService._is_document_processed`: an absent record file means "not
processed"; otherwise membership of `doc_id` among the file's lines. -/
def is_document_processed (record : Option String) (doc_id : String) : Bool :=
  match record with
  | none => false
  | some txt => (splitlines txt).contains doc_id

/-- `DocumentLoaderService._record_processed_document`: append `doc_id ++ "\n"` to the
record file, creating it when absent (`open(..., "a")`). -/
def record_processed_document (record : Option String) (doc_id : String) :
    Option String :=
  some ((record.getD "") ++ doc_id ++ "\n")

/-- `DocumentLoaderService.list_all_processed_documents`. -/
def list_all_processed_documents (record : Option String) : List String :=
  match record with
  | none => []
  | some txt => splitlines txt

/-- `DocumentLoaderService.delete_processed_document`: unlink the saved copy when
present (a warning otherwise), remove the first occurrence of `doc_id` from the listed
ids (a warning when absent), and rewrite the record file as `"\n".join(ids)` — with no
trailing newline. -/
def delete_processed_document (s : LoaderState) (doc_id : String) : LoaderState :=
  let dir := s.documents_dir.filter (fun p => !(p.1 == doc_id))
  let ids := list_all_processed_documents s.record
  let ids := if ids.contains doc_id then ids.erase doc_id else ids
  { documents_dir := dir, record := some (join_newline ids) }

/-- `DocumentLoaderService.load_document`: look the lower-cased extension up in
`SUPPORTED_LOADERS`, raising `ValueError` for an unsupported type; the selected
loader together with `text_splitter.split_documents` (external collaborators that
turn the saved bytes into chunks) is abstracted as the injected `parse` function. -/
def load_document (parse : String → String → Except String (List Chunk))
    (name data : String) : Except String (List Chunk) :=
  if SUPPORTED_EXTENSIONS.contains (lower_str (path_suffix name)) then parse name data
  else Except.error ("Unsupported file type: " ++ lower_str (path_suffix name))

/-- `DocumentLoaderService._process_file`: the document id is the upload's file name;
when `skip_processed` holds and the id is recorded, return `[]` without touching disk;
otherwise save the upload into the documents directory, then load and chunk it — on
success record the id and return the chunks, on any failure (including the
unsupported-extension `ValueError`) log it and return `[]`, the exception swallowed. -/
def process_file (parse : String → String → Except String (List Chunk))
    (s : LoaderState) (f : UploadedFile) (skip_processed : Bool) :
    LoaderState × List Chunk :=
  let doc_id := f.name
  if skip_processed && is_document_processed s.record doc_id then (s, [])
  else
    let s1 : LoaderState :=
      { s with documents_dir := write_file s.documents_dir f.name f.data }
    match load_document parse f.name f.data with
    | Except.ok chunks =>
        ({ s1 with record := record_processed_document s1.record doc_id }, chunks)
    | Except.error _ => (s1, [])

/-- `FAISSConversationalRAGChain.add_documents`, result message: when `_process_file`
returned no chunks the chain answers with the skip message and does not touch the
vector store; otherwise it indexes the chunks and returns no message. -/
def chain_add_documents_message (chunks : List Chunk) (name : String) :
    Option String :=
  if chunks.isEmpty then
    some ("Skipping already processed file:  " ++ name ++ " ")
  else none

/-- C3 (counterexample). Uploading `evil.xyz` (unsupported extension) with an empty
documents directory DOES write the file copy to disk: `_process_file` saves the upload
before `load_document` checks the extension, and the `ValueError` is then caught and
logged, the call returning `[]` with no error surfaced. -/
theorem C3_unsupported_extension_counterexample :
    (process_file (fun _ _ => Except.ok [])
        { documents_dir := [], record := none }
        { name := "evil.xyz", data := "PAYLOAD" } true).1.documents_dir
      = [("evil.xyz", "PAYLOAD")] ∧
    (process_file (fun _ _ => Except.ok [])
        { documents_dir := [], record := none }
        { name := "evil.xyz", data := "PAYLOAD" } true).2 = [] := by
  exact ⟨by decide, by decide⟩

/-- C3 (amended). For every upload whose extension is unsupported (and that is not
short-circuited by the skip-if-processed check), ingestion first saves the file copy
into the documents directory, then the load step fails and the failure is swallowed:
no chunk is produced, no registry entry is made, no error reaches the caller — but
the saved file copy remains on disk, so disk state is not untouched. -/
theorem C3_unsupported_extension_saved_then_swallowed
    (parse : String → String → Except String (List Chunk)) (s : LoaderState)
    (f : UploadedFile) (skip : Bool)
    (h1 : SUPPORTED_EXTENSIONS.contains (lower_str (path_suffix f.name)) = false)
    (h2 : (skip && is_document_processed s.record f.name) = false) :
    process_file parse s f skip
      = ({ s with documents_dir := write_file s.documents_dir f.name f.data }, []) := by
  have hload : load_document parse f.name f.data
      = Except.error ("Unsupported file type: " ++ lower_str (path_suffix f.name)) := by
    unfold load_document
    rw [h1]
    simp
  simp [process_file, h2, hload]

/-- C3 (witness for the amended theorem at a concrete upload). -/
theorem C3_unsupported_extension_witness :
    (SUPPORTED_EXTENSIONS.contains (lower_str (path_suffix "evil.XYZ")) = false) ∧
    ((true && is_document_processed (some "a.txt\n") "evil.XYZ") = false) ∧
    process_file (fun n d => Except.ok [{ content := d, file_name := n }])
        { documents_dir := [], record := some "a.txt\n" }
        { name := "evil.XYZ", data := "B" } true
      = ({ documents_dir := write_file [] "evil.XYZ" "B",
           record := some "a.txt\n" }, []) :=
  ⟨by decide, by decide,
    C3_unsupported_extension_saved_then_swallowed
      (fun n d => Except.ok [{ content := d, file_name := n }])
      { documents_dir := [], record := some "a.txt\n" }
      { name := "evil.XYZ", data := "B" } true (by decide) (by decide)⟩

/-- C10 (code bug). `delete_processed_document` rewrites the record as
`"\n".join(ids)` with no trailing newline, while `_record_processed_document` appends
`doc_id ++ "\n"` assuming the file ends at a line boundary. After deleting `a.txt`
from a record listing `a.txt` and `b.txt`, the file holds `"b.txt"`; recording
`c.txt` then yields the single line `"b.txtc.txt"`, so neither `b.txt` (recorded
earlier and never deleted) nor the just-recorded `c.txt` is a member any more —
against both halves of the claim. -/
theorem C10_delete_then_record_corrupts_membership :
    (record_processed_document
        (delete_processed_document
            { documents_dir := [], record := some "a.txt\nb.txt\n" } "a.txt").record
        "c.txt" = some "b.txtc.txt\n") ∧
    is_document_processed (some "b.txtc.txt\n") "c.txt" = false ∧
    is_document_processed (some "b.txtc.txt\n") "b.txt" = false := by
  exact ⟨by decide, by decide, by decide⟩

/-- C9 (code bug). Ingesting the same filename a second time with skip-if-processed
enabled is not reliably skipped: after `delete_processed_document` has rewritten the
record without a trailing newline, the id recorded by the first ingestion of `c.txt`
is folded into the previous line (`"b.txtc.txt"`), so the second ingestion does not
find it, re-saves and re-chunks the file, and returns the chunks again — not zero
chunks, and the chain reports no skip message. -/
theorem C9_second_ingestion_not_skipped_after_delete :
    (process_file (fun n d => Except.ok [{ content := d, file_name := n }])
      (process_file (fun n d => Except.ok [{ content := d, file_name := n }])
        (delete_processed_document
          { documents_dir := [("a.txt", "A"), ("b.txt", "B")],
            record := some "a.txt\nb.txt\n" } "a.txt")
        { name := "c.txt", data := "C" } true).1
      { name := "c.txt", data := "C" } true).2
    = [{ content := "C", file_name := "c.txt" }] ∧
    chain_add_documents_message [{ content := "C", file_name := "c.txt" }] "c.txt"
      = none := by
  exact ⟨by decide, by decide⟩

/-! ## Long-term-memory middleware (`src/memory/long_term_memory.py`) -/

/-- A langchain message: `HumanMessage`, `AIMessage` (with its `tool_calls` list,
empty when none), or `ToolMessage`. -/
inductive Msg where
  | human (content : String)
  | ai (content : String) (tool_calls : List String)
  | tool (content : String)
  deriving DecidableEq

/-- `getattr(msg, "content", "")`. -/
def Msg.content : Msg → String
  | .human c => c
  | .ai c _ => c
  | .tool c => c

/-- The `current_query` computed by `retrieve_similar_history_middleware`: a
`HumanMessage`'s content via the `type == "human"` branch; a `ToolMessage` has
`content` but no `tool_calls` attribute, so the `elif` branch also takes its content;
an `AIMessage` has a `tool_calls` attribute and yields no query. -/
def Msg.query : Msg → String
  | .human c => c
  | .ai _ _ => ""
  | .tool c => c

/-- The slice of agent state the middleware touch: the persisted message history and
the ephemeral system prompt of the current call (`runtime.kwargs["system"]`). -/
structure MwState where
  messages : List Msg
  system : String
  deriving DecidableEq

/-- `content.strip()` is falsy: the string is empty or all whitespace. -/
def is_blank (s : String) : Bool :=
  s.toList.all (fun c => c == ' ' || c == '\n' || c == '\t' || c == '\r')

/-- `retrieve_similar_history_middleware`: take the last message's query text; if it
is empty, skip; otherwise run `chroma_store.similarity_search(query, k=3)` — a call
NOT wrapped in try/except, so a raised failure propagates out of the middleware — and
when results exist append the labeled context block to the ephemeral system prompt.
The external Chroma search is the injected `similarity_search`. -/
def retrieve_similar_history_middleware
    (similarity_search : String → Except String (List String))
    (st : MwState) : Except String MwState :=
  match st.messages.getLast? with
  | none => Except.ok st
  | some last =>
    if last.query = "" then Except.ok st
    else
      match similarity_search last.query with
      | Except.error e => Except.error e
      | Except.ok results =>
        if results.isEmpty then Except.ok st
        else
          Except.ok { st with system := (st.system
              ++ "\n\n## Reference Conversation History (Memory):\n"
              ++ join_newline (results.map (fun r => "- " ++ r)) ++ "\n") }

/-- `save_user_messages_middleware`: only the last message is considered; when it is a
user text message with non-blank content, persist it under the content-hash id — the
`chroma_store.add_texts` call sits in a try/except whose handler only logs, so a
persistence failure never escapes, and the returned agent state is unchanged either
way. (The multimodal list-content branch is not modelled: content is plain text.) -/
def save_user_messages_middleware (add_texts : String → Except String Unit)
    (st : MwState) : Except String MwState :=
  match st.messages.getLast? with
  | none => Except.ok st
  | some last =>
    match last with
    | .human c =>
      if !(is_blank c) then
        match add_texts c with
        | Except.error _ => Except.ok st
        | Except.ok _ => Except.ok st
      else Except.ok st
    | _ => Except.ok st

/-- `save_assistant_response_middleware`: skip persistence when the response carries
tool calls; otherwise persist non-blank content under the content-hash id, again with
the `add_texts` call inside a try/except that logs and swallows failures. A response
without a `tool_calls` attribute (not an `AIMessage`) goes through the content path. -/
def save_assistant_response_middleware (add_texts : String → Except String Unit)
    (response : Option Msg) (st : MwState) : Except String MwState :=
  match response with
  | none => Except.ok st
  | some (.ai c tool_calls) =>
    if !tool_calls.isEmpty then Except.ok st
    else if !(is_blank c) then
      match add_texts c with
      | Except.error _ => Except.ok st
      | Except.ok _ => Except.ok st
    else Except.ok st
  | some other =>
    if !(is_blank other.content) then
      match add_texts other.content with
      | Except.error _ => Except.ok st
      | Except.ok _ => Except.ok st
    else Except.ok st

/-- `sanitize_dangling_tool_middleware`: when the last message is an `AIMessage` whose
`tool_calls` list is non-empty, drop it (`messages[:-1]`); otherwise the history is
untouched. The removal sits in a try/except, but list slicing cannot fail, so the
middleware is total. -/
def sanitize_dangling_tool_middleware (messages : List Msg) : List Msg :=
  match messages.getLast? with
  | none => messages
  | some last =>
    match last with
    | .ai _ tool_calls =>
      if tool_calls.isEmpty then messages else messages.dropLast
    | _ => messages

/-- Spec wording: the history "ends on the preceding User turn". -/
def ends_on_user_turn (ms : List Msg) : Bool :=
  match ms.getLast? with
  | some (.human _) => true
  | _ => false

/-- The sanitizer's trigger condition: the history ends in an Assistant turn carrying
unresolved tool calls. -/
def ends_in_dangling_tool_call (ms : List Msg) : Bool :=
  match ms.getLast? with
  | some (.ai _ tool_calls) => !tool_calls.isEmpty
  | _ => false

/-- C4 (counterexample). Not every memory-pipeline stage swallows failures: the
`similarity_search` call inside `retrieve_similar_history_middleware` has no
try/except, so when the long-term store raises, the exception propagates out of the
middleware and aborts the user-visible turn. -/
theorem C4_retrieval_failure_aborts_turn_counterexample :
    retrieve_similar_history_middleware (fun _ => Except.error "chroma down")
      { messages := [Msg.human "hello"], system := "" }
      = Except.error "chroma down" := by
  rfl

/-- C4 (amended). The persistence stages are failure-proof as claimed: for every
input, `save_user_messages_middleware` and `save_assistant_response_middleware`
return the state unchanged and never propagate a failure of the injected `add_texts`
(their try/except logs and swallows it), and the sanitizer is total; but the
history-retrieval stage is not — a failing `similarity_search` propagates and aborts
the turn whenever the last message carries a non-empty query. -/
theorem C4_persistence_swallowed_retrieval_propagates :
    (∀ (add_texts : String → Except String Unit) (st : MwState),
        save_user_messages_middleware add_texts st = Except.ok st) ∧
    (∀ (add_texts : String → Except String Unit) (response : Option Msg)
        (st : MwState),
        save_assistant_response_middleware add_texts response st = Except.ok st) ∧
    retrieve_similar_history_middleware (fun _ => Except.error "backend down")
      { messages := [Msg.human "hi"], system := "sys" }
      = Except.error "backend down" := by
  refine ⟨?_, ?_, rfl⟩
  · intro add_texts st
    unfold save_user_messages_middleware
    cases hlast : st.messages.getLast? with
    | none => rfl
    | some last =>
      cases last with
      | human c =>
        cases hb : is_blank c with
        | true => simp [hb]
        | false => cases hadd : add_texts c with
          | error e => simp [hb, hadd]
          | ok u => simp [hb, hadd]
      | ai c tool_calls => rfl
      | tool c => rfl
  · intro add_texts response st
    unfold save_assistant_response_middleware
    cases response with
    | none => rfl
    | some r =>
      cases r with
      | ai c tool_calls =>
        cases htc : tool_calls.isEmpty with
        | true =>
          cases hb : is_blank c with
          | true => simp [htc, hb]
          | false => cases hadd : add_texts c with
            | error e => simp [htc, hb, hadd]
            | ok u => simp [htc, hb, hadd]
        | false => simp [htc]
      | human c =>
        cases hb : is_blank c with
        | true => simp [Msg.content, hb]
        | false => cases hadd : add_texts c with
          | error e => simp [Msg.content, hb, hadd]
          | ok u => simp [Msg.content, hb, hadd]
      | tool c =>
        cases hb : is_blank c with
        | true => simp [Msg.content, hb]
        | false => cases hadd : add_texts c with
          | error e => simp [Msg.content, hb, hadd]
          | ok u => simp [Msg.content, hb, hadd]

/-- C5 (counterexample). When the dangling Assistant turn does not directly follow a
User message — here it follows the ToolMessage of an earlier resolved call — the
sanitizer still drops exactly the last message, but the resulting history ends on
that ToolMessage, not on "the preceding User turn" as the claim states for every
such history. -/
theorem C5_sanitizer_counterexample :
    ends_in_dangling_tool_call
      [Msg.human "q", Msg.ai "" ["call1"], Msg.tool "result", Msg.ai "" ["call2"]]
      = true ∧
    sanitize_dangling_tool_middleware
      [Msg.human "q", Msg.ai "" ["call1"], Msg.tool "result", Msg.ai "" ["call2"]]
      = [Msg.human "q", Msg.ai "" ["call1"], Msg.tool "result"] ∧
    ends_on_user_turn
      [Msg.human "q", Msg.ai "" ["call1"], Msg.tool "result"] = false := by
  exact ⟨by decide, by decide, by decide⟩

/-- C5 (amended). For every history ending in an Assistant turn with unresolved tool
calls, the sanitizer drops exactly that trailing message — one fewer message, the
remainder untouched — and the result ends on the preceding User turn exactly when the
dropped message directly followed one; every other history is left unchanged. -/
theorem C5_sanitizer_drops_exactly_last (ms : List Msg) :
    (ends_in_dangling_tool_call ms = true →
      sanitize_dangling_tool_middleware ms = ms.dropLast ∧
      (sanitize_dangling_tool_middleware ms).length + 1 = ms.length) ∧
    (ends_in_dangling_tool_call ms = false →
      sanitize_dangling_tool_middleware ms = ms) ∧
    (ends_in_dangling_tool_call ms = true → ends_on_user_turn ms.dropLast = true →
      ends_on_user_turn (sanitize_dangling_tool_middleware ms) = true) := by
  cases hlast : ms.getLast? with
  | none =>
    refine ⟨?_, ?_, ?_⟩ <;>
      simp [ends_in_dangling_tool_call, sanitize_dangling_tool_middleware, hlast]
  | some last =>
    have hne : ms ≠ [] := by
      intro h
      rw [h] at hlast
      simp at hlast
    have hpos : 1 ≤ ms.length := List.length_pos.mpr hne
    cases last with
    | human c =>
      refine ⟨?_, ?_, ?_⟩ <;>
        simp [ends_in_dangling_tool_call, sanitize_dangling_tool_middleware, hlast]
    | tool c =>
      refine ⟨?_, ?_, ?_⟩ <;>
        simp [ends_in_dangling_tool_call, sanitize_dangling_tool_middleware, hlast]
    | ai c tool_calls =>
      cases htc : tool_calls.isEmpty with
      | true =>
        refine ⟨?_, ?_, ?_⟩ <;>
          simp [ends_in_dangling_tool_call, sanitize_dangling_tool_middleware,
            hlast, htc]
      | false =>
        have hsan : sanitize_dangling_tool_middleware ms = ms.dropLast := by
          simp [sanitize_dangling_tool_middleware, hlast, htc]
        refine ⟨fun _ => ⟨hsan, ?_⟩, fun hfalse => ?_, fun _ hu => ?_⟩
        · rw [hsan, List.length_dropLast]
          omega
        · rw [ends_in_dangling_tool_call, hlast] at hfalse
          simp [htc] at hfalse
        · rw [hsan]
          exact hu

/-- C5 (witness for the amended theorem: a crash right after a user question). -/
theorem C5_sanitizer_witness :
    ends_in_dangling_tool_call [Msg.human "q1", Msg.ai "" ["call1"]] = true ∧
    sanitize_dangling_tool_middleware [Msg.human "q1", Msg.ai "" ["call1"]]
      = ([Msg.human "q1", Msg.ai "" ["call1"]] : List Msg).dropLast :=
  ⟨by decide,
    ((C5_sanitizer_drops_exactly_last [Msg.human "q1", Msg.ai "" ["call1"]]).1
      (by decide)).1⟩

/-! ## Conversational chain session setup (`src/chains/faiss_conversational_chain.py`) -/

/-- `FAISSConversationalRAGChain.__init__`, checkpoint handling: every file under
`Config.SHORT_TERM_MEMORY` is unlinked first
(`for file in Path(...).rglob("*"): file.unlink(missing_ok=True)`), then
`sqlite3.connect` opens `{session_id}.db`, creating it empty. The directory is
modelled as file name ↦ database content. -/
def chain_init_checkpoint (dir : List (String × String)) (session_id : String) :
    List (String × String) :=
  let wiped := dir.filter (fun _ => false)
  write_file wiped (session_id ++ ".db") ""

/-- C2 (code bug). Re-creating the session object does not reopen the persisted
checkpoint with the state as last written: `__init__` deletes every file under the
short-term-memory directory before connecting, so a previously written `default.db`
comes back empty (and every other session's store is destroyed too). The sanitizer
middleware's own docstring presupposes that a history persisted by a crashed run is
still present on the next run, which this wipe makes impossible. -/
theorem C2_session_recreation_loses_checkpoint :
    chain_init_checkpoint
        [("default.db", "thread default: user:hi assistant:hello")] "default"
      = [("default.db", "")] ∧
    ("thread default: user:hi assistant:hello" : String) ≠ "" := by
  exact ⟨by decide, by decide⟩

/-! ## Long-term memory store dedup (`generate_msg_id` + Chroma `add_texts`) -/

/-- `generate_msg_id`: the id is the MD5 hex digest of `"{role}:{content}"` — a pure
function of (role, content). The external `hashlib.md5(...).hexdigest()` is abstracted
as the injected `md5_hexdigest`; only its being a function (determinism) matters for
the dedup property. -/
def generate_msg_id (md5_hexdigest : String → String) (content role : String) :
    String :=
  md5_hexdigest (role ++ ":" ++ content)

/-- Modelled from the spec: the Long-Term Memory Store insert,
`chroma_store.add_texts(texts=[content], ids=[msg_id])` — the Chroma store itself is
an external collaborator, and §4.3 specifies its contract: "insertion with an
existing id is an update/no-op". An existing id is overwritten in place; a fresh id
is appended. Entries map id ↦ stored content. -/
def chroma_add_text (entries : List (String × String)) (id content : String) :
    List (String × String) :=
  if entries.any (fun p => p.1 == id) then
    entries.map (fun p => if p.1 == id then (id, content) else p)
  else entries ++ [(id, content)]

/-- The persistence performed by `save_user_messages_middleware` /
`save_assistant_response_middleware`: compute the content-hash id, insert under it. -/
def persist_message (md5_hexdigest : String → String)
    (entries : List (String × String)) (role content : String) :
    List (String × String) :=
  chroma_add_text entries (generate_msg_id md5_hexdigest content role) content

/-- `persist` iterated N times with the same (role, content) pair. -/
def persist_message_iter (md5_hexdigest : String → String)
    (entries : List (String × String)) (role content : String) :
    Nat → List (String × String)
  | 0 => entries
  | n + 1 => persist_message md5_hexdigest
      (persist_message_iter md5_hexdigest entries role content n) role content

/-- Number of stored entries under a given id. -/
def key_count (entries : List (String × String)) (id : String) : Nat :=
  (entries.filter (fun p => p.1 == id)).length

/-- Splitting off the head of a key count. -/
theorem key_count_cons (a : String × String) (t : List (String × String))
    (mid : String) :
    key_count (a :: t) mid = (if a.1 = mid then 1 else 0) + key_count t mid := by
  unfold key_count
  rw [List.filter_cons]
  by_cases ha : a.1 = mid
  · simp [ha, Nat.add_comm]
  · simp [ha]

/-- The in-place overwrite leaves the number of entries under the id unchanged. -/
theorem key_count_overwrite (entries : List (String × String)) (mid c : String) :
    key_count (entries.map (fun p => if p.1 == mid then (mid, c) else p)) mid
      = key_count entries mid := by
  unfold key_count
  rw [List.filter_map, List.length_map]
  congr 1
  apply List.filter_congr
  intro p _
  by_cases hp : p.1 = mid
  · simp [Function.comp, hp]
  · simp [Function.comp, hp]

/-- The overwrite also leaves the key sequence unchanged. -/
theorem map_fst_overwrite (entries : List (String × String)) (mid c : String) :
    (entries.map (fun p => if p.1 == mid then (mid, c) else p)).map Prod.fst
      = entries.map Prod.fst := by
  rw [List.map_map]
  apply List.map_congr_left
  intro p _
  by_cases hp : p.1 = mid
  · simp [Function.comp, hp]
  · simp [Function.comp, hp]

/-- No entry sits under the id when the existence scan failed. -/
theorem key_count_eq_zero_of_any_false (entries : List (String × String))
    (mid : String) (h : entries.any (fun p => p.1 == mid) = false) :
    key_count entries mid = 0 := by
  unfold key_count
  rw [List.length_eq_zero, List.filter_eq_nil_iff]
  intro p hp
  have := List.any_eq_false.mp h p hp
  simpa using this

/-- With no duplicate ids, at most one entry sits under any id. -/
theorem key_count_le_one_of_nodup (entries : List (String × String)) (mid : String)
    (h : (entries.map Prod.fst).Nodup) : key_count entries mid ≤ 1 := by
  induction entries with
  | nil => exact Nat.zero_le 1
  | cons a t ih =>
    rw [List.map_cons, List.nodup_cons] at h
    rw [key_count_cons]
    by_cases ha : a.1 = mid
    · have hz : key_count t mid = 0 := by
        apply key_count_eq_zero_of_any_false
        rw [List.any_eq_false]
        intro p hp hbeq
        have hpm : p.1 = mid := by simpa using hbeq
        have hmem : p.1 ∈ t.map Prod.fst := List.mem_map_of_mem Prod.fst hp
        rw [hpm, ← ha] at hmem
        exact h.1 hmem
      rw [if_pos ha, hz]
    · rw [if_neg ha]
      simpa using ih h.2

/-- A successful existence scan forces at least one entry under the id. -/
theorem key_count_pos_of_any_true (entries : List (String × String)) (mid : String)
    (h : entries.any (fun p => p.1 == mid) = true) : 1 ≤ key_count entries mid := by
  induction entries with
  | nil => simp at h
  | cons a t ih =>
    rw [key_count_cons]
    by_cases ha : a.1 = mid
    · rw [if_pos ha]
      omega
    · rw [if_neg ha]
      rw [List.any_cons] at h
      have ht : t.any (fun p => p.1 == mid) = true := by
        simpa [ha] using h
      simpa using ih ht

/-- Inserting under an id leaves exactly one entry under it (given unique ids). -/
theorem key_count_chroma_add (entries : List (String × String)) (mid c : String)
    (h : (entries.map Prod.fst).Nodup) :
    key_count (chroma_add_text entries mid c) mid = 1 := by
  unfold chroma_add_text
  cases hany : entries.any (fun p => p.1 == mid) with
  | true =>
    rw [if_pos rfl, key_count_overwrite]
    exact Nat.le_antisymm (key_count_le_one_of_nodup entries mid h)
      (key_count_pos_of_any_true entries mid hany)
  | false =>
    rw [if_neg Bool.false_ne_true]
    rw [key_count, List.filter_append, List.length_append]
    rw [show (entries.filter (fun p => p.1 == mid)).length = 0 from
      key_count_eq_zero_of_any_false entries mid hany]
    simp [List.filter_cons]

/-- Inserting preserves the uniqueness of ids. -/
theorem nodup_chroma_add (entries : List (String × String)) (mid c : String)
    (h : (entries.map Prod.fst).Nodup) :
    ((chroma_add_text entries mid c).map Prod.fst).Nodup := by
  unfold chroma_add_text
  cases hany : entries.any (fun p => p.1 == mid) with
  | true =>
    rw [if_pos rfl, map_fst_overwrite]
    exact h
  | false =>
    rw [if_neg Bool.false_ne_true]
    rw [List.map_append, List.nodup_append]
    refine ⟨h, List.nodup_singleton mid, ?_⟩
    intro x hx hmem
    have hxm : x = mid := by simpa using hmem
    subst hxm
    obtain ⟨p, hp, hfst⟩ := List.mem_map.mp hx
    have hcontra : entries.any (fun p => p.1 == x) = true := by
      rw [List.any_eq_true]
      exact ⟨p, hp, by simp [hfst]⟩
    rw [hcontra] at hany
    exact Bool.noConfusion hany

/-- Iterated persistence preserves uniqueness of ids. -/
theorem nodup_persist_iter (md5_hexdigest : String → String)
    (entries : List (String × String)) (role content : String) (n : Nat)
    (h : (entries.map Prod.fst).Nodup) :
    ((persist_message_iter md5_hexdigest entries role content n).map Prod.fst).Nodup := by
  induction n with
  | zero => exact h
  | succ m ih => exact nodup_chroma_add _ _ _ ih

/-- C7. Persisting the same (role, content) pair N ≥ 1 times into a store with unique
ids yields exactly one stored entry under `generate_msg_id(content, role)`: the id is
a pure function of (role, content) and re-insertion under an existing id overwrites
in place. -/
theorem C7_persist_same_pair_dedups (md5_hexdigest : String → String)
    (entries : List (String × String)) (role content : String) (n : Nat)
    (hnodup : (entries.map Prod.fst).Nodup) (hn : 1 ≤ n) :
    key_count (persist_message_iter md5_hexdigest entries role content n)
      (generate_msg_id md5_hexdigest content role) = 1 := by
  cases n with
  | zero => exact (Nat.not_succ_le_zero 0 hn).elim
  | succ m =>
    exact key_count_chroma_add _ _ _
      (nodup_persist_iter md5_hexdigest entries role content m hnodup)

/-- C7 (witness: persisting "hello" as user three times into the empty store leaves
one entry). -/
theorem C7_persist_witness :
    (([] : List (String × String)).map Prod.fst).Nodup ∧ 1 ≤ 3 ∧
    key_count (persist_message_iter (fun s => s) [] "user" "hello" 3)
      (generate_msg_id (fun s => s) "hello" "user") = 1 :=
  ⟨by simp, by decide,
    C7_persist_same_pair_dedups (fun s => s) [] "user" "hello" 3 (by simp) (by decide)⟩

/-! ## Middleware ordering (`FAISSConversationalRAGChain.__init__`) -/

/-- The five middleware handed to `create_agent` (the summarization entry is the
library's `SummarizationMiddleware(model=..., max_tokens_before_summary=4000,
messages_to_keep=20)`). -/
inductive Middleware where
  | sanitize_dangling_tool
  | summarization
  | retrieve_similar_history
  | save_user_messages
  | save_assistant_response
  deriving DecidableEq

/-- The `middleware=[...]` list passed to `create_agent`, in source order. -/
def chain_middleware : List Middleware :=
  [Middleware.sanitize_dangling_tool,
   Middleware.summarization,
   Middleware.retrieve_similar_history,
   Middleware.save_user_messages,
   Middleware.save_assistant_response]

/-- Which hook each middleware implements: the repo's middleware are declared with
`@before_model`, except `save_assistant_response_middleware` (`@after_model`); the
library's `SummarizationMiddleware` acts before the model call. -/
def is_before_model : Middleware → Bool
  | Middleware.save_assistant_response => false
  | _ => true

/-- One executed step of a model turn. -/
inductive TurnEvent where
  | mw (m : Middleware)
  | model_call
  deriving DecidableEq

/-- Modelled from the spec: the agent loop lives in the external langchain library;
§4.4 describes it as "a strict ordered sequence of transforms applied around one
model turn" — the listed middlewares' before-model hooks run in list order, then the
model call, then the after-model hooks in reverse list order. -/
def executed_turn : List TurnEvent :=
  (chain_middleware.filter is_before_model).map TurnEvent.mw
    ++ [TurnEvent.model_call]
    ++ ((chain_middleware.filter
          (fun m => !(is_before_model m))).reverse.map TurnEvent.mw)

/-- The stage order that §4.4 of the spec asserts for one turn: sanitizer, history
retrieval & injection, user-message persistence, summarization gate, model call,
assistant-response persistence. -/
def spec_turn_order : List TurnEvent :=
  [TurnEvent.mw Middleware.sanitize_dangling_tool,
   TurnEvent.mw Middleware.retrieve_similar_history,
   TurnEvent.mw Middleware.save_user_messages,
   TurnEvent.mw Middleware.summarization,
   TurnEvent.model_call,
   TurnEvent.mw Middleware.save_assistant_response]

/-- C8 (counterexample). The executed order is not the spec's order: the
summarization middleware sits at position 1 of the source list, so its gate runs
before history retrieval and before user-message persistence, not after the
user-message persistence stage as the claim states. -/
theorem C8_order_counterexample :
    executed_turn ≠ spec_turn_order ∧
    executed_turn.indexOf (TurnEvent.mw Middleware.summarization)
      < executed_turn.indexOf (TurnEvent.mw Middleware.save_user_messages) := by
  exact ⟨by decide, by decide⟩

/-- C8 (amended). The turn applies, in order: (1) dangling tool-call sanitizer,
(2) summarization gate, (3) history retrieval & injection, (4) user-message
persistence, then the model call, then (5) assistant-response persistence. The
sanitizer does run before all other stages, as the claim states, but the
summarization gate runs before — not after — user-message persistence. -/
theorem C8_actual_turn_order :
    executed_turn
      = [TurnEvent.mw Middleware.sanitize_dangling_tool,
         TurnEvent.mw Middleware.summarization,
         TurnEvent.mw Middleware.retrieve_similar_history,
         TurnEvent.mw Middleware.save_user_messages,
         TurnEvent.model_call,
         TurnEvent.mw Middleware.save_assistant_response] ∧
    executed_turn.head? = some (TurnEvent.mw Middleware.sanitize_dangling_tool) := by
  exact ⟨by decide, by decide⟩
